import Mathlib

/-!
Verification of the currency-converter core (`src/main.py`).

Shallow embedding conventions:
* Python floats are modelled as exact rationals (`ℚ`); binary floating-point
  rounding is outside the model.
* The HTTP transport is a function from the request URL to an abstract
  result (`HttpResult`); the list of URLs requested is returned explicitly
  so that claims about "no network call" / "issues a second request" are
  statable.
* GUI widgets are modelled by their observable state: the two labels
  (`Labels`) and the message-box classification (`Outcome.severidade`).
-/

namespace Conversor

/-- Entry of the quotation-service JSON object for one pair key: the bid
rate as a decimal string and the quote timestamp, mirroring the fields
`bid` and `create_date` that `_obter_cotacao` reads.  Entries lacking one
of the two fields are outside the modelled input space. -/
structure Entry where
  bid : String
  create_date : String
deriving DecidableEq

/-- Result of one HTTP attempt (`requests.get` + `raise_for_status` +
`.json()` in the source).  `success` is a 2xx status with a JSON object
body; the other three constructors are the ways the attempt can raise:
non-2xx status, transport-level failure, or a body that is not JSON. -/
inductive HttpResult where
  | success (dados : List (String × Entry))
  | httpError
  | connError
  | badJson
deriving DecidableEq

/-- Builds the request URL from `API_URL_TEMPLATE`
(`https://economia.awesomeapi.com.br/json/last/{origem}-{destino}`). -/
def apiUrl (origem destino : String) : String :=
  "https://economia.awesomeapi.com.br/json/last/" ++ origem ++ "-" ++ destino

/-- Message of the `ValueError` raised at the end of `_obter_cotacao`. -/
def parErroMsg (origem destino : String) : String :=
  "O par de moedas " ++ origem ++ "-" ++ destino ++
    " e o par inverso não foram encontrados ou a API está indisponível."

/-- Splits a character list into its longest all-digit prefix and the rest. -/
def splitDigits : List Char → List Char × List Char
  | [] => ([], [])
  | c :: cs =>
    if c.isDigit then
      let p := splitDigits cs
      (c :: p.1, p.2)
    else ([], c :: cs)

/-- Value of a most-significant-first digit string as a natural number. -/
def digitsToNat (ds : List Char) : ℕ :=
  ds.foldl (fun n c => 10 * n + (c.toNat - 48)) 0

/-- Modelled from CPython `float()` restricted to plain decimal literals:
an optional sign, then digits with at most one point and at least one
digit.  Scientific notation, `inf`/`nan`, surrounding whitespace and
digit-group underscores are outside the modelled input space (none occur
in the behaviours claimed).  `none` models `float()` raising
`ValueError`. -/
def pyFloatCore (s : List Char) : Option ℚ :=
  let p := splitDigits s
  match p.2 with
  | [] => if p.1 = [] then none else some ((digitsToNat p.1 : ℕ) : ℚ)
  | '.' :: rest2 =>
    let q := splitDigits rest2
    if q.2 = [] ∧ (p.1 ≠ [] ∨ q.1 ≠ []) then
      some ((digitsToNat p.1 : ℚ) + (digitsToNat q.1 : ℚ) / (10 : ℚ) ^ q.1.length)
    else none
  | _ => none

/-- Sign handling of `float()` on top of `pyFloatCore`. -/
def pyFloat : List Char → Option ℚ
  | '-' :: rest => (pyFloatCore rest).map (fun x => -x)
  | '+' :: rest => pyFloatCore rest
  | s => pyFloatCore s

/-- `float()` applied to a Python string. -/
def pyFloatS (s : String) : Option ℚ :=
  pyFloat s.data

/-- Result of `_obter_cotacao`: either the returned triple
`(cotacao, data, par_usado)` or the `ValueError` it raises. -/
inductive CotacaoResult where
  | ok (cotacao : ℚ) (data par_usado : String)
  | valueError (msg : String)
deriving DecidableEq

/-- Inverse-pair attempt of `_obter_cotacao` (the body of the nested
`try` in the `except` branch).  Every exception inside it — request
failure, non-2xx, bad JSON, unparsable bid, and the `ZeroDivisionError`
of `1 / 0.0` — is swallowed by `except Exception: pass`, after which the
function raises the final `ValueError`; a missing inverse key likewise
falls through to that raise. -/
def tentaInversa (transporte : String → HttpResult)
    (parInverso urlInversa origem destino : String) : CotacaoResult :=
  match transporte urlInversa with
  | .success dados =>
    match dados.lookup parInverso with
    | some e =>
      match pyFloatS e.bid with
      | some b =>
        if b = 0 then .valueError (parErroMsg origem destino)
        else .ok (1 / b) e.create_date parInverso
      | none => .valueError (parErroMsg origem destino)
    | none => .valueError (parErroMsg origem destino)
  | _ => .valueError (parErroMsg origem destino)

/-- `_obter_cotacao`: tries the direct pair, falling back to the inverse
pair only when the direct attempt raises.  The second component is the
ordered list of URLs actually requested.  Note the asymmetry faithful to
the source: when the direct request succeeds but the direct pair key is
absent, no exception occurs, the `except` branch is skipped, and the
final `ValueError` is raised without any inverse request. -/
def obterCotacao (transporte : String → HttpResult)
    (origem destino : String) : CotacaoResult × List String :=
  let parDireto := origem ++ destino
  let urlDireta := apiUrl origem destino
  let parInverso := destino ++ origem
  let urlInversa := apiUrl destino origem
  match transporte urlDireta with
  | .success dados =>
    match dados.lookup parDireto with
    | some e =>
      match pyFloatS e.bid with
      | some b => (.ok b e.create_date parDireto, [urlDireta])
      | none =>
        (tentaInversa transporte parInverso urlInversa origem destino,
         [urlDireta, urlInversa])
    | none => (.valueError (parErroMsg origem destino), [urlDireta])
  | _ =>
    (tentaInversa transporte parInverso urlInversa origem destino,
     [urlDireta, urlInversa])

/-- Little-endian decimal digits of a natural number, with explicit fuel
so that the definition is structurally recursive. -/
def digitsRevAux : ℕ → ℕ → List ℕ
  | 0, _ => []
  | fuel + 1, n => if n = 0 then [] else n % 10 :: digitsRevAux fuel (n / 10)

/-- Little-endian decimal digits of a natural number (`[]` for zero). -/
def digitsRev (n : ℕ) : List ℕ :=
  digitsRevAux n n

/-- Inserts the thousands separator `,` after every third character of a
little-endian digit list, as Python `format(x, handled-comma)` groups the
integer part. -/
def group3Rev : List Char → List Char
  | a :: b :: c :: d :: rest => a :: b :: c :: ',' :: group3Rev (d :: rest)
  | l => l

/-- Decimal rendering of the integer part with `,` thousands grouping. -/
def intChars (n : ℕ) : List Char :=
  if n = 0 then ['0']
  else (group3Rev ((digitsRev n).map Nat.digitChar)).reverse

/-- Round-half-even of the fraction `a / b` (for `b` the positive
denominator), the rounding Python `format` applies. -/
def rheDiv (a : ℤ) (b : ℕ) : ℤ :=
  let qt := a.fdiv b
  let r := a.fmod b
  if 2 * r < b then qt
  else if (b : ℤ) < 2 * r then qt + 1
  else if qt % 2 = 0 then qt else qt + 1

/-- Number of cents displayed for `x`: round-half-even of `100 * x`. -/
def centavos (x : ℚ) : ℤ :=
  rheDiv (100 * x.num) x.den

/-- Renders a nonnegative cent count `n` in the style of Python
`f-format comma .2f`: grouped integer part, `.`, two fractional digits. -/
def fmt2fN (n : ℕ) : List Char :=
  intChars (n / 100) ++ '.' :: [Nat.digitChar (n / 10 % 10), Nat.digitChar (n % 10)]

/-- Python `f-format comma .2f` of a rational, modelled with exact
round-half-even (the source formats the binary double; on the exact
values of the claims the two agree). -/
def fmt2f (x : ℚ) : List Char :=
  let n := centavos x
  if n < 0 then '-' :: fmt2fN n.natAbs else fmt2fN n.toNat

/-- First separator swap of the source: `replace(",", "_")` as a
character map (single-character `str.replace` is exactly a map). -/
def swapComma (l : List Char) : List Char :=
  l.map fun c => if c = ',' then '_' else c

/-- Second separator swap of the source: `replace(".", ",")`. -/
def swapDot (l : List Char) : List Char :=
  l.map fun c => if c = '.' then ',' else c

/-- Third separator swap of the source: `replace("_", ".")`. -/
def swapUnder (l : List Char) : List Char :=
  l.map fun c => if c = '_' then '.' else c

/-- The displayed result text: `f-format comma .2f` followed by the three
separator swaps of `converter_moeda` (net effect: `.` thousands
separator, `,` decimal separator). -/
def textoResultado (x : ℚ) : List Char :=
  swapUnder (swapDot (swapComma (fmt2f x)))

/-- Outcome of one click of CONVERTER (`converter_moeda`): one of the
three `QMessageBox.warning` early returns, the `QMessageBox.critical`
shown by the `except ValueError` handler, or the success path.  The
`except requests.exceptions.RequestException` and generic `except`
branches of the source are unreachable: `float` and `_obter_cotacao`
only raise `ValueError`, every other exception being swallowed inside
`_obter_cotacao` itself. -/
inductive Outcome where
  | avisoMoedasIguais
  | avisoValorVazio
  | avisoValorNaoPositivo
  | erroApi (mensagem : String)
  | sucesso (resultado : ℚ) (texto : List Char) (par_usado data : String)
deriving DecidableEq

/-- Dialog severity of an outcome (`QMessageBox.warning` vs
`QMessageBox.critical`); `nenhuma` for the success path. -/
inductive Severidade where
  | aviso
  | critico
  | nenhuma
deriving DecidableEq

/-- Severity of the message box each outcome shows. -/
def Outcome.severidade : Outcome → Severidade
  | .avisoMoedasIguais => .aviso
  | .avisoValorVazio => .aviso
  | .avisoValorNaoPositivo => .aviso
  | .erroApi _ => .critico
  | .sucesso _ _ _ _ => .nenhuma

/-- Whether the outcome is the success path. -/
def Outcome.isSucesso : Outcome → Bool
  | .sucesso _ _ _ _ => true
  | _ => false

/-- Detail text of the `ValueError` CPython `float()` raises on an
unparsable string (the surrounding quotes of the Python `repr` are
omitted from the model). -/
def floatErrDetail (t : List Char) : String :=
  "could not convert string to float: " ++ String.mk t

/-- Text of the critical dialog shown by the `except ValueError`
handler of `converter_moeda`. -/
def msgErroApi (detalhe : String) : String :=
  "Valor inválido ou erro de cotação. Detalhe: " ++ detalhe

/-- Text set into `lbl_data_cotacao` on the success path. -/
def footerTexto (par_usado data : String) : String :=
  "Fonte: AwesomeAPI | Par Usado: " ++ par_usado ++ " | Última Cotação: " ++ data

/-- The comma-to-point replacement applied to the amount input
(`self.input_valor.text().replace(",", ".")`). -/
def replComma (t : List Char) : List Char :=
  t.map fun c => if c = ',' then '.' else c

/-- Decision core of `converter_moeda`: from the two selected currencies
and the raw text of the amount input, the outcome and the ordered list of
URLs requested.  Mirrors the source order: same-currency check, empty
check, `float` parse, positivity check, quote resolution, computation and
formatting. -/
def converterCore (transporte : String → HttpResult) (origem destino : String)
    (t : List Char) : Outcome × List String :=
  let vt := replComma t
  if origem = destino then (.avisoMoedasIguais, [])
  else if vt.isEmpty then (.avisoValorVazio, [])
  else
    match pyFloat vt with
    | none => (.erroApi (msgErroApi (floatErrDetail vt)), [])
    | some valor =>
      if valor ≤ 0 then (.avisoValorNaoPositivo, [])
      else
        match obterCotacao transporte origem destino with
        | (.ok cotacao data par, reqs) =>
          (.sucesso (valor * cotacao) (textoResultado (valor * cotacao)) par data,
           reqs)
        | (.valueError m, reqs) => (.erroApi (msgErroApi m), reqs)

/-- Observable state of the two labels `lbl_resultado` and
`lbl_data_cotacao`. -/
structure Labels where
  resultado : List Char
  dataCotacao : String
deriving DecidableEq

/-- Initial label texts set in `_setup_ui`. -/
def rotulosIniciais : Labels :=
  { resultado := ("0,00").data
    dataCotacao := "Fonte: AwesomeAPI | Última Cotação: -" }

/-- `converter_moeda` including its effect on the two labels: the source
calls `setText` on both labels only on the success path, so every other
outcome leaves them untouched. -/
def converterMoeda (transporte : String → HttpResult) (origem destino : String)
    (t : List Char) (lbls : Labels) : Outcome × Labels × List String :=
  match converterCore transporte origem destino t with
  | (.sucesso r txt par data, reqs) =>
    (.sucesso r txt par data,
     { resultado := txt, dataCotacao := footerTexto par data }, reqs)
  | (out, reqs) => (out, lbls, reqs)

/-- A JSON value stored under `origem`/`destino` in `config.json`: a
string, or a non-string value together with its Python truthiness
(`combo.findText` raises `TypeError` on a non-string argument). -/
inductive JsonVal where
  | str (s : String)
  | nonStr (truthy : Bool)
deriving DecidableEq

/-- State of `config.json` as `carregar_config` can encounter it:
absent, present but not JSON (`json.load` raises), JSON but not an
object (`config.get` raises `AttributeError`), or a JSON object given by
its entries. -/
inductive ConfigFile where
  | missing
  | notJson
  | nonDict
  | dict (entries : List (String × JsonVal))
deriving DecidableEq

/-- `carregar_config`: returns the pair of combo selections after the
call, starting from the current selections `sel` and the fixed item list
`moedas`.  A missing file returns early; any exception inside the `try`
(unparsable JSON, non-object JSON, `findText` on a non-string truthy
value) is caught and logged, keeping whatever selections were already
applied. -/
def carregarConfig (file : ConfigFile) (moedas : List String)
    (sel : String × String) : String × String :=
  match file with
  | .missing => sel
  | .notJson => sel
  | .nonDict => sel
  | .dict entries =>
    match entries.lookup ("origem") with
    | some (.nonStr true) => sel
    | vo =>
      let sel1 :=
        match vo with
        | some (.str o) => if o ≠ "" ∧ o ∈ moedas then (o, sel.2) else sel
        | _ => sel
      match entries.lookup ("destino") with
      | some (.nonStr true) => sel1
      | some (.str dd) => if dd ≠ "" ∧ dd ∈ moedas then (sel1.1, dd) else sel1
      | _ => sel1

/-- The fixed currency list offered by both combo boxes. -/
def moedas : List String :=
  ["USD", "BRL", "EUR", "JPY", "ARS", "CAD", "AUD", "GBP", "CHF"]

/-- Whether the direct attempt of `_obter_cotacao` raises an exception
(request failure, non-2xx status, bad JSON, or unparsable bid) — the
exact condition under which the source enters its `except` branch and
issues the inverse request.  A response that is well-formed but merely
lacks the direct pair key does not raise. -/
def diretaLevanta (transporte : String → HttpResult) (o d : String) : Bool :=
  match transporte (apiUrl o d) with
  | .success dados =>
    match dados.lookup (o ++ d) with
    | some e => (pyFloatS e.bid).isNone
    | none => false
  | _ => true

/-- Whether the direct attempt yields a usable rate: 2xx well-formed
response containing the direct pair key with a parsable bid. -/
def diretaUsavel (transporte : String → HttpResult) (o d : String) : Bool :=
  match transporte (apiUrl o d) with
  | .success dados =>
    match dados.lookup (o ++ d) with
    | some e => (pyFloatS e.bid).isSome
    | none => false
  | _ => false

/-- Whether the inverse attempt yields a usable rate: 2xx well-formed
response containing the inverse pair key with a parsable nonzero bid
(a zero bid makes `1 / bid` raise `ZeroDivisionError`). -/
def inversaUsavel (transporte : String → HttpResult) (o d : String) : Bool :=
  match transporte (apiUrl d o) with
  | .success dados =>
    match dados.lookup (d ++ o) with
    | some e =>
      match pyFloatS e.bid with
      | some b => if b = 0 then false else true
      | none => false
    | none => false
  | _ => false

/-- Invalid-amount predicate of the specification: the input is empty,
does not parse as a number, or parses to a nonpositive number. -/
def valorInvalido (t : List Char) : Bool :=
  (replComma t).isEmpty ||
    match pyFloat (replComma t) with
    | none => true
    | some v => decide (v ≤ 0)

/-- Transport whose direct USD→BRL request succeeds with the direct
pair key present and bid 5.00; every other request fails. -/
def transDireta : String → HttpResult := fun u =>
  if u = apiUrl ("USD") ("BRL") then
    .success [("USDBRL", { bid := "5.00", create_date := "2024-01-01 12:00:00" })]
  else .connError

/-- Transport whose direct USD→BRL request raises (connection error)
while the inverse BRL→USD request succeeds with bid 0.20. -/
def transQuedaDireta : String → HttpResult := fun u =>
  if u = apiUrl ("BRL") ("USD") then
    .success [("BRLUSD", { bid := "0.20", create_date := "2024-01-01 12:00:00" })]
  else .connError

/-- Transport whose direct USD→BRL request succeeds with a well-formed
body that lacks the direct pair key, while the inverse pair key would be
available with a good bid. -/
def transChaveAusente : String → HttpResult := fun u =>
  if u = apiUrl ("USD") ("BRL") then .success []
  else if u = apiUrl ("BRL") ("USD") then
    .success [("BRLUSD", { bid := "0.20", create_date := "2024-01-02 10:00:00" })]
  else .connError

/-- Transport whose direct BRL→USD request succeeds with bid 0.20. -/
def transVolta : String → HttpResult := fun u =>
  if u = apiUrl ("BRL") ("USD") then
    .success [("BRLUSD", { bid := "0.20", create_date := "2024-01-01 12:00:00" })]
  else .connError

/-- Transport on which every request fails at the connection level. -/
def transSemRede : String → HttpResult := fun _ => .connError

/-! ### Helper lemmas -/

theorem pyFloat_nil : pyFloat [] = none := by
  simp [pyFloat, pyFloatCore, splitDigits]

theorem replComma_nil_iff (t : List Char) : replComma t = [] ↔ t = [] := by
  simp [replComma]

/-- Successful inverse attempt. -/
theorem tentaInversa_ok (transporte : String → HttpResult) (o d : String)
    (dados : List (String × Entry)) (e : Entry) (b : ℚ)
    (h2 : transporte (apiUrl d o) = .success dados)
    (h3 : dados.lookup (d ++ o) = some e)
    (h4 : pyFloatS e.bid = some b) (h5 : b ≠ 0) :
    tentaInversa transporte (d ++ o) (apiUrl d o) o d =
      .ok (1 / b) e.create_date (d ++ o) := by
  simp [tentaInversa, h2, h3, h4, h5]

/-- Unusable inverse attempt: every path ends in the final raise. -/
theorem tentaInversa_falha (transporte : String → HttpResult) (o d : String)
    (h : inversaUsavel transporte o d = false) :
    tentaInversa transporte (d ++ o) (apiUrl d o) o d =
      .valueError (parErroMsg o d) := by
  unfold inversaUsavel at h
  cases hT : transporte (apiUrl d o) with
  | success dados =>
    rw [hT] at h
    simp only at h
    cases hl : dados.lookup (d ++ o) with
    | some e =>
      rw [hl] at h
      simp only at h
      cases hp : pyFloatS e.bid with
      | some b =>
        rw [hp] at h
        simp only at h
        have hb : b = 0 := by
          by_cases hb0 : b = 0
          · exact hb0
          · simp [hb0] at h
        simp [tentaInversa, hT, hl, hp, hb]
      | none => simp [tentaInversa, hT, hl, hp]
    | none => simp [tentaInversa, hT, hl]
  | httpError => simp [tentaInversa, hT]
  | connError => simp [tentaInversa, hT]
  | badJson => simp [tentaInversa, hT]

/-- When the direct attempt raises, `_obter_cotacao` issues the inverse
request and returns whatever the inverse attempt produces. -/
theorem obterCotacao_excecao (transporte : String → HttpResult) (o d : String)
    (h : diretaLevanta transporte o d = true) :
    obterCotacao transporte o d =
      (tentaInversa transporte (d ++ o) (apiUrl d o) o d,
       [apiUrl o d, apiUrl d o]) := by
  unfold diretaLevanta at h
  cases hT : transporte (apiUrl o d) with
  | success dados =>
    rw [hT] at h
    simp only at h
    cases hl : dados.lookup (o ++ d) with
    | some e =>
      rw [hl] at h
      rw [Option.isNone_iff_eq_none] at h
      simp [obterCotacao, hT, hl, h]
    | none => rw [hl] at h; simp at h
  | httpError => simp [obterCotacao, hT]
  | connError => simp [obterCotacao, hT]
  | badJson => simp [obterCotacao, hT]

/-- An amount that parses to a positive value is in particular nonempty. -/
theorem replComma_naoVazio {t : List Char} {v : ℚ}
    (h1 : pyFloat (replComma t) = some v) : (replComma t).isEmpty = false := by
  cases hrt : replComma t with
  | nil => rw [hrt, pyFloat_nil] at h1; cases h1
  | cons a l => rfl

/-- Success path of the decision core. -/
theorem converterCore_sucesso (transporte : String → HttpResult)
    (o d : String) (t : List Char) (v c : ℚ) (data par : String)
    (reqs : List String)
    (h0 : o ≠ d) (h1 : pyFloat (replComma t) = some v) (h2 : 0 < v)
    (h3 : obterCotacao transporte o d = (.ok c data par, reqs)) :
    converterCore transporte o d t =
      (.sucesso (v * c) (textoResultado (v * c)) par data, reqs) := by
  simp [converterCore, h0, replComma_naoVazio h1, h1, h3, not_le.mpr h2]

/-- Quote-failure path of the decision core. -/
theorem converterCore_erro (transporte : String → HttpResult)
    (o d : String) (t : List Char) (v : ℚ) (m : String) (reqs : List String)
    (h0 : o ≠ d) (h1 : pyFloat (replComma t) = some v) (h2 : 0 < v)
    (h3 : obterCotacao transporte o d = (.valueError m, reqs)) :
    converterCore transporte o d t = (.erroApi (msgErroApi m), reqs) := by
  simp [converterCore, h0, replComma_naoVazio h1, h1, h3, not_le.mpr h2]

/-- Same-currency early return of the decision core. -/
theorem converterCore_mesma (transporte : String → HttpResult)
    (o : String) (t : List Char) :
    converterCore transporte o o t = (.avisoMoedasIguais, []) := by
  simp [converterCore]

/-- Empty-amount early return of the decision core. -/
theorem converterCore_vazio (transporte : String → HttpResult)
    (o d : String) (h0 : o ≠ d) :
    converterCore transporte o d [] = (.avisoValorVazio, []) := by
  simp [converterCore, h0, replComma]

/-- Unparsable-amount path of the decision core: `float` raises
`ValueError`, caught by the critical handler. -/
theorem converterCore_naoNumerico (transporte : String → HttpResult)
    (o d : String) (t : List Char)
    (h0 : o ≠ d) (ht : t ≠ []) (h1 : pyFloat (replComma t) = none) :
    converterCore transporte o d t =
      (.erroApi (msgErroApi (floatErrDetail (replComma t))), []) := by
  have ht2 : (replComma t).isEmpty = false := by
    cases t with
    | nil => cases ht rfl
    | cons a l => rfl
  simp [converterCore, h0, ht2, h1]

/-- Nonpositive-amount early return of the decision core. -/
theorem converterCore_naoPositivo (transporte : String → HttpResult)
    (o d : String) (t : List Char) (v : ℚ)
    (h0 : o ≠ d) (h1 : pyFloat (replComma t) = some v) (h2 : v ≤ 0) :
    converterCore transporte o d t = (.avisoValorNaoPositivo, []) := by
  simp [converterCore, h0, replComma_naoVazio h1, h1, h2]

/-- Success path of the full handler, labels included. -/
theorem converterMoeda_sucesso (transporte : String → HttpResult)
    (o d : String) (t : List Char) (lbls : Labels) (v c : ℚ)
    (data par : String) (reqs : List String)
    (h0 : o ≠ d) (h1 : pyFloat (replComma t) = some v) (h2 : 0 < v)
    (h3 : obterCotacao transporte o d = (.ok c data par, reqs)) :
    converterMoeda transporte o d t lbls =
      (.sucesso (v * c) (textoResultado (v * c)) par data,
       { resultado := textoResultado (v * c)
         dataCotacao := footerTexto par data },
       reqs) := by
  unfold converterMoeda
  rw [converterCore_sucesso transporte o d t v c data par reqs h0 h1 h2 h3]

/-- The outcome of the full handler is the outcome of the decision core. -/
theorem converterMoeda_fst (transporte : String → HttpResult)
    (o d : String) (t : List Char) (lbls : Labels) :
    (converterMoeda transporte o d t lbls).1 =
      (converterCore transporte o d t).1 := by
  unfold converterMoeda
  rcases h : converterCore transporte o d t with ⟨out, reqs⟩
  cases out <;> rfl

/-- The requests of the full handler are those of the decision core. -/
theorem converterMoeda_reqs (transporte : String → HttpResult)
    (o d : String) (t : List Char) (lbls : Labels) :
    (converterMoeda transporte o d t lbls).2.2 =
      (converterCore transporte o d t).2 := by
  unfold converterMoeda
  rcases h : converterCore transporte o d t with ⟨out, reqs⟩
  cases out <;> rfl

/-- Outside the success path the labels are left untouched. -/
theorem converterMoeda_rotulos_aux (transporte : String → HttpResult)
    (o d : String) (t : List Char) (lbls : Labels)
    (h : ((converterCore transporte o d t).1).isSucesso = false) :
    (converterMoeda transporte o d t lbls).2.1 = lbls := by
  unfold converterMoeda
  rcases hc : converterCore transporte o d t with ⟨out, reqs⟩
  rw [hc] at h
  cases out <;> simp_all [Outcome.isSucesso]

/-! ### Formatting lemmas -/

theorem digitsRevAux_lt (fuel n : ℕ) : ∀ x ∈ digitsRevAux fuel n, x < 10 := by
  induction fuel generalizing n with
  | zero => simp [digitsRevAux]
  | succ fuel ih =>
    intro x hx
    unfold digitsRevAux at hx
    by_cases hn : n = 0
    · simp [hn] at hx
    · rw [if_neg hn] at hx
      rcases List.mem_cons.mp hx with rfl | hx
      · exact Nat.mod_lt _ (by norm_num)
      · exact ih (n / 10) x hx

theorem digitChar_isDigit (n : ℕ) (h : n < 10) :
    (Nat.digitChar n).isDigit = true := by
  interval_cases n <;> decide

/-- Characters of the grouped digit list are input characters or `,`. -/
theorem group3Rev_mem (l : List Char) : ∀ c ∈ group3Rev l, c ∈ l ∨ c = ',' := by
  have H : ∀ (n : ℕ) (l : List Char), l.length ≤ n →
      ∀ c ∈ group3Rev l, c ∈ l ∨ c = ',' := by
    intro n
    induction n with
    | zero =>
      intro l hl c hc
      have hnil : l = [] := List.length_eq_zero.mp (Nat.le_zero.mp hl)
      subst hnil
      simp [group3Rev] at hc
    | succ n ih =>
      intro l hl c hc
      match l with
      | [] => simp [group3Rev] at hc
      | [a] => exact Or.inl hc
      | [a, b] => exact Or.inl hc
      | [a, b, c2] => exact Or.inl hc
      | a :: b :: c2 :: d :: rest =>
        rw [show group3Rev (a :: b :: c2 :: d :: rest) =
            a :: b :: c2 :: ',' :: group3Rev (d :: rest) from rfl] at hc
        have hlen : (d :: rest).length ≤ n := by
          simp only [List.length_cons] at hl ⊢
          omega
        simp only [List.mem_cons] at hc
        rcases hc with rfl | rfl | rfl | rfl | hc
        · exact Or.inl (by simp)
        · exact Or.inl (by simp)
        · exact Or.inl (by simp)
        · exact Or.inr rfl
        · rcases ih (d :: rest) hlen c hc with hm | rfl
          · simp only [List.mem_cons] at hm ⊢
            tauto
          · exact Or.inr rfl
  exact H l.length l le_rfl

/-- Characters of the formatted integer part are digits or `,`. -/
theorem intChars_mem (k : ℕ) : ∀ c ∈ intChars k, c.isDigit = true ∨ c = ',' := by
  intro c hc
  unfold intChars at hc
  by_cases hk : k = 0
  · rw [if_pos hk] at hc
    rw [List.mem_singleton] at hc
    subst hc
    exact Or.inl (by decide)
  · rw [if_neg hk] at hc
    rw [List.mem_reverse] at hc
    rcases group3Rev_mem _ c hc with hmem | rfl
    · unfold digitsRev at hmem
      rw [List.mem_map] at hmem
      obtain ⟨dn, hdn, rfl⟩ := hmem
      exact Or.inl (digitChar_isDigit dn (digitsRevAux_lt k k dn hdn))
    · exact Or.inr rfl

theorem rheDiv_nonneg (a : ℤ) (b : ℕ) (ha : 0 ≤ a) : 0 ≤ rheDiv a b := by
  have hq : 0 ≤ a.fdiv b := Int.fdiv_nonneg ha (Int.natCast_nonneg b)
  unfold rheDiv
  dsimp only
  split
  · exact hq
  · split
    · omega
    · split
      · exact hq
      · omega

theorem centavos_nonneg (x : ℚ) (hx : 0 ≤ x) : 0 ≤ centavos x := by
  unfold centavos
  apply rheDiv_nonneg
  have hn : 0 ≤ x.num := Rat.num_nonneg.mpr hx
  omega

/-- The three separator swaps distribute over append. -/
theorem swaps_append (l1 l2 : List Char) :
    swapUnder (swapDot (swapComma (l1 ++ l2))) =
      swapUnder (swapDot (swapComma l1)) ++ swapUnder (swapDot (swapComma l2)) := by
  simp [swapComma, swapDot, swapUnder]

/-- A digit character passes through the three swaps unchanged. -/
theorem swaps_digit (c : Char) (h : c.isDigit = true) :
    swapUnder (swapDot (swapComma [c])) = [c] := by
  have h1 : c ≠ ',' := by rintro rfl; exact absurd h (by decide)
  have h2 : c ≠ '.' := by rintro rfl; exact absurd h (by decide)
  have h3 : c ≠ '_' := by rintro rfl; exact absurd h (by decide)
  simp [swapComma, swapDot, swapUnder, h1, h2, h3]

/-- The decimal point becomes the comma under the three swaps. -/
theorem swaps_ponto : swapUnder (swapDot (swapComma ['.'])) = [','] := by decide

/-- The thousands comma becomes the period under the three swaps. -/
theorem swaps_virgula : swapUnder (swapDot (swapComma [','])) = ['.'] := by decide

theorem swaps_cons (a : Char) (l : List Char) :
    swapUnder (swapDot (swapComma (a :: l))) =
      swapUnder (swapDot (swapComma [a])) ++ swapUnder (swapDot (swapComma l)) := by
  simp [swapComma, swapDot, swapUnder]

/-- The swapped integer part consists of digits and `.` only. -/
theorem swaps_mem : ∀ (l : List Char), (∀ c ∈ l, c.isDigit = true ∨ c = ',') →
    ∀ c ∈ swapUnder (swapDot (swapComma l)), c.isDigit = true ∨ c = '.' := by
  intro l
  induction l with
  | nil =>
    intro _ c hc
    simp [swapComma, swapDot, swapUnder] at hc
  | cons a l ih =>
    intro hl c hc
    rw [swaps_cons] at hc
    rcases List.mem_append.mp hc with hc1 | hc2
    · rcases hl a (by simp) with hd | rfl
      · rw [swaps_digit a hd, List.mem_singleton] at hc1
        subst hc1
        exact Or.inl hd
      · rw [swaps_virgula, List.mem_singleton] at hc1
        subst hc1
        exact Or.inr rfl
    · exact ih (fun c' h' => hl c' (by simp [h'])) c hc2

/-- Shape of the displayed result for a nonnegative value: an integer
part of digits and `.` thousands separators, then the decimal `,`, then
exactly two fractional digits. -/
theorem textoResultado_forma (x : ℚ) (hx : 0 ≤ x) :
    ∃ ip a b, textoResultado x = ip ++ ',' :: [a, b] ∧
      a.isDigit = true ∧ b.isDigit = true ∧
      ∀ c ∈ ip, c.isDigit = true ∨ c = '.' := by
  have hnn : 0 ≤ centavos x := centavos_nonneg x hx
  have hfi : fmt2f x = fmt2fN (centavos x).toNat := by
    unfold fmt2f
    rw [if_neg (not_lt.mpr hnn)]
  have hda : ((centavos x).toNat / 10 % 10) < 10 := Nat.mod_lt _ (by norm_num)
  have hdb : ((centavos x).toNat % 10) < 10 := Nat.mod_lt _ (by norm_num)
  refine ⟨swapUnder (swapDot (swapComma (intChars ((centavos x).toNat / 100)))),
    Nat.digitChar ((centavos x).toNat / 10 % 10),
    Nat.digitChar ((centavos x).toNat % 10), ?_,
    digitChar_isDigit _ hda, digitChar_isDigit _ hdb, ?_⟩
  · unfold textoResultado
    rw [hfi]
    unfold fmt2fN
    rw [show ('.' :: [Nat.digitChar ((centavos x).toNat / 10 % 10),
          Nat.digitChar ((centavos x).toNat % 10)]) =
        ['.'] ++ [Nat.digitChar ((centavos x).toNat / 10 % 10)] ++
          [Nat.digitChar ((centavos x).toNat % 10)] from rfl]
    rw [← List.append_assoc, ← List.append_assoc]
    rw [swaps_append, swaps_append, swaps_append]
    rw [swaps_ponto, swaps_digit _ (digitChar_isDigit _ hda),
      swaps_digit _ (digitChar_isDigit _ hdb)]
    simp
  · exact swaps_mem _ (intChars_mem _)

/-! ### Parsing lemmas -/

theorem splitDigits_all (ds rest : List Char)
    (hds : ∀ c ∈ ds, c.isDigit = true)
    (hr : ∀ c cs, rest = c :: cs → c.isDigit = false) :
    splitDigits (ds ++ rest) = (ds, rest) := by
  induction ds with
  | nil =>
    cases rest with
    | nil => rfl
    | cons c cs => simp [splitDigits, hr c cs rfl]
  | cons a ds ih =>
    have ha := hds a (by simp)
    simp [splitDigits, ha, ih (fun c h => hds c (by simp [h]))]

theorem replComma_sem_virgula (l : List Char) (h : ',' ∉ l) : replComma l = l := by
  induction l with
  | nil => rfl
  | cons a l ih =>
    have ha : a ≠ ',' := by
      rintro rfl
      exact h (by simp)
    have ht : replComma l = l := ih (fun hm => h (by simp [hm]))
    unfold replComma at ht ⊢
    rw [List.map_cons, ht]
    simp [ha]

theorem digitNaoVirgula {c : Char} (h : c.isDigit = true) : c ≠ ',' := by
  rintro rfl
  exact absurd h (by decide)

theorem digitNaoPonto {c : Char} (h : c.isDigit = true) : c ≠ '.' := by
  rintro rfl
  exact absurd h (by decide)

/-- The comma-to-point replacement turns `d1,d2` into `d1.d2`. -/
theorem replComma_decimal (d1 d2 : List Char)
    (h1 : ∀ c ∈ d1, c.isDigit = true) (h2 : ∀ c ∈ d2, c.isDigit = true) :
    replComma (d1 ++ ',' :: d2) = d1 ++ '.' :: d2 := by
  have e1 : replComma d1 = d1 :=
    replComma_sem_virgula d1 (fun hm => absurd rfl (digitNaoVirgula (h1 _ hm)))
  have e2 : replComma d2 = d2 :=
    replComma_sem_virgula d2 (fun hm => absurd rfl (digitNaoVirgula (h2 _ hm)))
  unfold replComma at e1 e2 ⊢
  rw [List.map_append, List.map_cons, e1, e2]
  simp

/-- On a list that starts with a digit, `pyFloat` is `pyFloatCore`. -/
theorem pyFloat_eq_core (c : Char) (cs : List Char)
    (h1 : c ≠ '-') (h2 : c ≠ '+') :
    pyFloat (c :: cs) = pyFloatCore (c :: cs) := by
  unfold pyFloat
  split
  next rest heq =>
    injection heq with ha hb
    exact absurd ha h1
  next rest heq =>
    injection heq with ha hb
    exact absurd ha h2
  next => rfl

/-- `float()` on a plain decimal literal `d1.d2` with a nonempty integer
part yields its decimal value. -/
theorem pyFloat_decimal (d1 d2 : List Char) (hne : d1 ≠ [])
    (h1 : ∀ c ∈ d1, c.isDigit = true) (h2 : ∀ c ∈ d2, c.isDigit = true) :
    pyFloat (d1 ++ '.' :: d2) =
      some ((digitsToNat d1 : ℚ) + (digitsToNat d2 : ℚ) / (10 : ℚ) ^ d2.length) := by
  obtain ⟨c, cs, rfl⟩ : ∃ c cs, d1 = c :: cs := by
    cases d1 with
    | nil => cases hne rfl
    | cons c cs => exact ⟨c, cs, rfl⟩
  have hc : c.isDigit = true := h1 c (by simp)
  have hcm : c ≠ '-' := by
    rintro rfl
    exact absurd hc (by decide)
  have hcp : c ≠ '+' := by
    rintro rfl
    exact absurd hc (by decide)
  have hs1 : splitDigits ((c :: cs) ++ '.' :: d2) = (c :: cs, '.' :: d2) := by
    apply splitDigits_all _ _ h1
    rintro c' cs' heq
    injection heq with ha hb
    subst ha
    decide
  have hs2 : splitDigits (d2 ++ []) = (d2, []) := by
    apply splitDigits_all _ _ h2
    rintro c' cs' heq
    cases heq
  rw [List.append_nil] at hs2
  rw [show (c :: cs) ++ '.' :: d2 = c :: (cs ++ '.' :: d2) from rfl]
  rw [pyFloat_eq_core _ _ hcm hcp]
  unfold pyFloatCore
  rw [show (c :: (cs ++ '.' :: d2)) = (c :: cs) ++ '.' :: d2 from rfl]
  rw [hs1]
  simp [hs2]

/-- When neither attempt is usable, `_obter_cotacao` raises the final
`ValueError`. -/
theorem obterCotacao_falha (transporte : String → HttpResult) (o d : String)
    (h1 : diretaUsavel transporte o d = false)
    (h2 : inversaUsavel transporte o d = false) :
    (obterCotacao transporte o d).1 = .valueError (parErroMsg o d) := by
  unfold diretaUsavel at h1
  cases hT : transporte (apiUrl o d) with
  | success dados =>
    rw [hT] at h1
    simp only at h1
    cases hl : dados.lookup (o ++ d) with
    | some e =>
      rw [hl] at h1
      simp only at h1
      cases hp : pyFloatS e.bid with
      | some b => rw [hp] at h1; simp at h1
      | none =>
        have hlev : diretaLevanta transporte o d = true := by
          simp [diretaLevanta, hT, hl, hp]
        rw [obterCotacao_excecao transporte o d hlev]
        simp [tentaInversa_falha transporte o d h2]
    | none => simp [obterCotacao, hT, hl]
  | httpError =>
    have hlev : diretaLevanta transporte o d = true := by
      simp [diretaLevanta, hT]
    rw [obterCotacao_excecao transporte o d hlev]
    simp [tentaInversa_falha transporte o d h2]
  | connError =>
    have hlev : diretaLevanta transporte o d = true := by
      simp [diretaLevanta, hT]
    rw [obterCotacao_excecao transporte o d hlev]
    simp [tentaInversa_falha transporte o d h2]
  | badJson =>
    have hlev : diretaLevanta transporte o d = true := by
      simp [diretaLevanta, hT]
    rw [obterCotacao_excecao transporte o d hlev]
    simp [tentaInversa_falha transporte o d h2]

/-! ### Claims -/

set_option maxRecDepth 100000

/-- C1, counterexample: the claim says a missing direct pair key (like
any other direct failure) makes the resolver issue the inverse request
and use its bid.  On `transChaveAusente` the direct request succeeds
with a body lacking the key and the inverse pair is perfectly usable,
yet the code requests only the direct URL and raises. -/
theorem obterCotacao_chave_ausente_sem_fallback :
    obterCotacao transChaveAusente ("USD") ("BRL") =
      (.valueError (parErroMsg ("USD") ("BRL")), [apiUrl ("USD") ("BRL")]) ∧
    inversaUsavel transChaveAusente ("USD") ("BRL") = true := by
  constructor
  · with_unfolding_all decide
  · with_unfolding_all decide

/-- C1 (amended): if the direct attempt raises an exception (network
error, non-2xx status, malformed response, or unparsable bid) the
resolver issues a second request for the inverse pair key, and if that
response contains the inverse key with a parsable nonzero bid it
returns rate 1/bid, pairUsed the inverse key, and asOf that entry's
timestamp; a well-formed direct response that merely lacks the direct
key raises no exception and triggers no inverse request. -/
theorem obterCotacao_fallback_inversa (transporte : String → HttpResult)
    (o d : String) (dados : List (String × Entry)) (e : Entry) (b : ℚ)
    (h1 : diretaLevanta transporte o d = true)
    (h2 : transporte (apiUrl d o) = .success dados)
    (h3 : dados.lookup (d ++ o) = some e)
    (h4 : pyFloatS e.bid = some b) (h5 : b ≠ 0) :
    obterCotacao transporte o d =
      (.ok (1 / b) e.create_date (d ++ o), [apiUrl o d, apiUrl d o]) := by
  rw [obterCotacao_excecao transporte o d h1,
    tentaInversa_ok transporte o d dados e b h2 h3 h4 h5]

/-- C1 witness: the fallback theorem applied to a transport whose
direct request fails at the connection level. -/
theorem obterCotacao_fallback_inversa_witness :
    obterCotacao transQuedaDireta ("USD") ("BRL") =
      (.ok (1 / (1 / 5 : ℚ)) ("2024-01-01 12:00:00") ("BRL" ++ "USD"),
       [apiUrl ("USD") ("BRL"), apiUrl ("BRL") ("USD")]) :=
  obterCotacao_fallback_inversa transQuedaDireta ("USD") ("BRL")
    [("BRLUSD", { bid := "0.20", create_date := "2024-01-01 12:00:00" })]
    { bid := "0.20", create_date := "2024-01-01 12:00:00" } (1 / 5)
    (by with_unfolding_all decide) (by with_unfolding_all decide)
    (by with_unfolding_all decide) (by with_unfolding_all decide)
    (by norm_num)

/-- C2: if the direct request succeeds with a well-formed body
containing the direct pair key (with its bid rate), the resolver
returns that bid unmodified with that entry's timestamp and pairUsed
the direct key, and only the direct URL is ever requested. -/
theorem obterCotacao_direta (transporte : String → HttpResult) (o d : String)
    (dados : List (String × Entry)) (e : Entry) (b : ℚ)
    (h1 : transporte (apiUrl o d) = .success dados)
    (h2 : dados.lookup (o ++ d) = some e)
    (h3 : pyFloatS e.bid = some b) :
    obterCotacao transporte o d =
      (.ok b e.create_date (o ++ d), [apiUrl o d]) := by
  simp [obterCotacao, h1, h2, h3]

/-- C2 witness: direct success on `transDireta` returns bid 5
untransformed for pair USDBRL with a single request. -/
theorem obterCotacao_direta_witness :
    obterCotacao transDireta ("USD") ("BRL") =
      (.ok 5 ("2024-01-01 12:00:00") ("USD" ++ "BRL"), [apiUrl ("USD") ("BRL")]) :=
  obterCotacao_direta transDireta ("USD") ("BRL")
    [("USDBRL", { bid := "5.00", create_date := "2024-01-01 12:00:00" })]
    { bid := "5.00", create_date := "2024-01-01 12:00:00" } 5
    (by with_unfolding_all decide) (by with_unfolding_all decide)
    (by with_unfolding_all decide)

/-- C3: when neither the direct nor the inverse attempt yields a usable
rate, `_obter_cotacao` raises `ValueError` whose message carries the
origin and destination, and `converter_moeda` recovers it as the
critical Erro-de-API classification with the labels untouched — the
failure never escapes the handler. -/
theorem conversao_ambas_falham (transporte : String → HttpResult)
    (o d : String) (t : List Char) (lbls : Labels) (v : ℚ)
    (h0 : o ≠ d)
    (h1 : diretaUsavel transporte o d = false)
    (h2 : inversaUsavel transporte o d = false)
    (h3 : pyFloat (replComma t) = some v) (h4 : 0 < v) :
    (obterCotacao transporte o d).1 = .valueError (parErroMsg o d) ∧
    parErroMsg o d = "O par de moedas " ++ o ++ "-" ++ d ++
      " e o par inverso não foram encontrados ou a API está indisponível." ∧
    (converterMoeda transporte o d t lbls).1 =
      .erroApi (msgErroApi (parErroMsg o d)) ∧
    (converterMoeda transporte o d t lbls).2.1 = lbls := by
  have hfst := obterCotacao_falha transporte o d h1 h2
  obtain ⟨r, reqs, hor⟩ : ∃ r reqs, obterCotacao transporte o d = (r, reqs) :=
    ⟨_, _, rfl⟩
  rw [hor] at hfst
  simp only at hfst
  subst hfst
  have hcore := converterCore_erro transporte o d t v (parErroMsg o d) reqs
    h0 h3 h4 hor
  refine ⟨by rw [hor], rfl, ?_, ?_⟩
  · rw [converterMoeda_fst, hcore]
  · apply converterMoeda_rotulos_aux
    rw [hcore]
    rfl

/-- C3 witness: both attempts fail on `transSemRede`. -/
theorem conversao_ambas_falham_witness :
    (converterMoeda transSemRede ("USD") ("BRL") (("100").data)
        rotulosIniciais).1 =
      .erroApi (msgErroApi (parErroMsg ("USD") ("BRL"))) ∧
    (converterMoeda transSemRede ("USD") ("BRL") (("100").data)
        rotulosIniciais).2.1 = rotulosIniciais := by
  have h := conversao_ambas_falham transSemRede ("USD") ("BRL")
    (("100").data) rotulosIniciais 100
    (by decide) (by with_unfolding_all decide) (by with_unfolding_all decide)
    (by with_unfolding_all decide) (by norm_num)
  exact ⟨h.2.2.1, h.2.2.2⟩

/-- C4, counterexample: the claim says a non-numeric amount yields a
blocking warning; the code lets `float()` raise `ValueError`, which the
`except ValueError` handler surfaces as a critical Erro-de-API dialog
(no network call is indeed made, and the labels stay untouched). -/
theorem conversao_nao_numerico_critico :
    converterMoeda transSemRede ("USD") ("BRL") (("abc").data) rotulosIniciais =
      (.erroApi (msgErroApi (floatErrDetail (("abc").data))),
       rotulosIniciais, []) ∧
    Outcome.severidade
      (.erroApi (msgErroApi (floatErrDetail (("abc").data)))) = .critico := by
  constructor
  · with_unfolding_all decide
  · rfl

/-- C4 (amended): with distinct currencies, an empty amount yields the
empty-amount blocking warning and a parsable nonpositive amount yields
the nonpositive blocking warning, while a non-numeric amount yields the
critical Erro-de-API classification (shared with quote failures); in
all three cases no network request is issued and the labels are left
unchanged. -/
theorem conversao_valor_invalido (transporte : String → HttpResult)
    (o d : String) (t : List Char) (lbls : Labels)
    (h0 : o ≠ d) (h : valorInvalido t = true) :
    (converterMoeda transporte o d t lbls).2.2 = [] ∧
    (converterMoeda transporte o d t lbls).2.1 = lbls ∧
    (converterMoeda transporte o d t lbls).1 =
      (if (replComma t).isEmpty then .avisoValorVazio
       else
         match pyFloat (replComma t) with
         | none => .erroApi (msgErroApi (floatErrDetail (replComma t)))
         | some _ => .avisoValorNaoPositivo) := by
  cases t with
  | nil =>
    have hcore := converterCore_vazio transporte o d h0
    unfold converterMoeda
    rw [hcore]
    refine ⟨rfl, rfl, ?_⟩
    simp [replComma]
  | cons a ts =>
    have he : (replComma (a :: ts)).isEmpty = false := rfl
    cases hp : pyFloat (replComma (a :: ts)) with
    | none =>
      have hcore := converterCore_naoNumerico transporte o d (a :: ts) h0
        (by simp) hp
      unfold converterMoeda
      rw [hcore]
      refine ⟨rfl, rfl, ?_⟩
      simp [he, hp]
    | some v =>
      have hv : v ≤ 0 := by
        unfold valorInvalido at h
        rw [he, hp] at h
        simp only [Bool.false_or] at h
        exact of_decide_eq_true h
      have hcore := converterCore_naoPositivo transporte o d (a :: ts) v h0 hp hv
      unfold converterMoeda
      rw [hcore]
      refine ⟨rfl, rfl, ?_⟩
      simp [he, hp]

/-- C4 witness: the amended theorem applied to the nonpositive amount
0 (warning) — the non-numeric branch is exercised by the
counterexample. -/
theorem conversao_valor_invalido_witness :
    (converterMoeda transSemRede ("USD") ("BRL") (("0").data)
        rotulosIniciais).2.2 = [] ∧
    (converterMoeda transSemRede ("USD") ("BRL") (("0").data)
        rotulosIniciais).2.1 = rotulosIniciais := by
  have h := conversao_valor_invalido transSemRede ("USD") ("BRL")
    (("0").data) rotulosIniciais (by decide) (by with_unfolding_all decide)
  exact ⟨h.1, h.2.1⟩

/-- C5: selecting the same currency for origin and destination always
returns the same-currency blocking warning, leaves the labels
untouched, and issues no network request, whatever the transport, the
amount text and the label state. -/
theorem conversao_mesma_moeda (transporte : String → HttpResult)
    (o : String) (t : List Char) (lbls : Labels) :
    converterMoeda transporte o o t lbls = (.avisoMoedasIguais, lbls, []) ∧
    Outcome.severidade .avisoMoedasIguais = .aviso := by
  constructor
  · unfold converterMoeda
    rw [converterCore_mesma]
  · rfl

/-- C6: on the success path the computed amount is exactly
amount * rate and the displayed text is the formatted value — an
integer part of digits with `.` thousands separators, a `,` decimal
separator, and exactly two fractional digits; on the concrete mocked
USDBRL response with bid 5.00 and amount 100 the result is 500,
displayed as 500,00 with pairUsed USDBRL. -/
theorem conversao_sucesso_formato (transporte : String → HttpResult)
    (o d : String) (t : List Char) (lbls : Labels) (v c : ℚ)
    (data par : String) (reqs : List String)
    (h0 : o ≠ d) (h1 : pyFloat (replComma t) = some v) (h2 : 0 < v)
    (h3 : obterCotacao transporte o d = (.ok c data par, reqs)) (h4 : 0 ≤ c) :
    (converterMoeda transporte o d t lbls).1 =
      .sucesso (v * c) (textoResultado (v * c)) par data ∧
    (∃ ip a b, textoResultado (v * c) = ip ++ ',' :: [a, b] ∧
      a.isDigit = true ∧ b.isDigit = true ∧
      ∀ ch ∈ ip, ch.isDigit = true ∨ ch = '.') ∧
    converterMoeda transDireta ("USD") ("BRL") (("100").data) rotulosIniciais =
      (.sucesso 500 (("500,00").data) ("USDBRL") ("2024-01-01 12:00:00"),
       { resultado := ("500,00").data
         dataCotacao := footerTexto ("USDBRL") ("2024-01-01 12:00:00") },
       [apiUrl ("USD") ("BRL")]) := by
  refine ⟨?_, textoResultado_forma _ (mul_nonneg h2.le h4), ?_⟩
  · rw [converterMoeda_sucesso transporte o d t lbls v c data par reqs h0 h1 h2 h3]
  · with_unfolding_all decide

/-- C6 witness: the success theorem applied to the mocked USDBRL
response with bid 5.00 and amount 100. -/
theorem conversao_sucesso_formato_witness :
    (converterMoeda transDireta ("USD") ("BRL") (("100").data)
        rotulosIniciais).1 =
      .sucesso ((100 : ℚ) * 5) (textoResultado ((100 : ℚ) * 5)) ("USDBRL")
        ("2024-01-01 12:00:00") :=
  (conversao_sucesso_formato transDireta ("USD") ("BRL") (("100").data)
    rotulosIniciais 100 5 ("2024-01-01 12:00:00") ("USDBRL")
    [apiUrl ("USD") ("BRL")] (by decide) (by with_unfolding_all decide)
    (by norm_num) (by with_unfolding_all decide) (by norm_num)).1

/-- C7: converting a positive amount at rate r and then converting the
computed result back at the reciprocal rate 1/r recovers the original
amount; in the exact-rational model the round trip is an identity,
which in particular is within any floating-point tolerance. -/
theorem conversao_ida_volta (T1 T2 : String → HttpResult) (o d : String)
    (t1 t2 : List Char) (lbls1 lbls2 : Labels) (v r : ℚ)
    (s1 s2 p1 p2 : String) (q1 q2 : List String)
    (h0 : o ≠ d)
    (ht1 : pyFloat (replComma t1) = some v) (hv : 0 < v)
    (hq1 : obterCotacao T1 o d = (.ok r s1 p1, q1)) (hr : 0 < r)
    (hq2 : obterCotacao T2 d o = (.ok (1 / r) s2 p2, q2))
    (ht2 : pyFloat (replComma t2) = some (v * r)) :
    (converterMoeda T1 o d t1 lbls1).1 =
      .sucesso (v * r) (textoResultado (v * r)) p1 s1 ∧
    (converterMoeda T2 d o t2 lbls2).1 =
      .sucesso v (textoResultado v) p2 s2 := by
  constructor
  · rw [converterMoeda_sucesso T1 o d t1 lbls1 v r s1 p1 q1 h0 ht1 hv hq1]
  · have hvr : 0 < v * r := mul_pos hv hr
    have key : (v * r) * (1 / r) = v := by
      field_simp
    rw [converterMoeda_sucesso T2 d o t2 lbls2 (v * r) (1 / r) s2 p2 q2
      (Ne.symm h0) ht2 hvr hq2, key]

/-- C7 witness: 100 USD→BRL at rate 5, then the computed 500 BRL→USD at
the reciprocal rate 1/5 (direct bid 0.20), recovers 100. -/
theorem conversao_ida_volta_witness :
    (converterMoeda transVolta ("BRL") ("USD") (("500").data)
        rotulosIniciais).1 =
      .sucesso 100 (textoResultado 100) ("BRLUSD") ("2024-01-01 12:00:00") :=
  (conversao_ida_volta transDireta transVolta ("USD") ("BRL")
    (("100").data) (("500").data) rotulosIniciais rotulosIniciais 100 5
    ("2024-01-01 12:00:00") ("2024-01-01 12:00:00") ("USDBRL") ("BRLUSD")
    [apiUrl ("USD") ("BRL")] [apiUrl ("BRL") ("USD")]
    (by decide) (by with_unfolding_all decide) (by norm_num)
    (by with_unfolding_all decide) (by norm_num)
    (by with_unfolding_all decide) (by with_unfolding_all decide)).2

/-- C8: a missing `config.json`, a file that is not valid JSON, or a
JSON body that is not an object never fails startup: `carregar_config`
absorbs the error and returns with the default selections unchanged. -/
theorem carregarConfig_nao_fatal (f : ConfigFile) (ms : List String)
    (sel : String × String)
    (h : f = .missing ∨ f = .notJson ∨ f = .nonDict) :
    carregarConfig f ms sel = sel := by
  rcases h with rfl | rfl | rfl <;> rfl

/-- C8 witness: the missing-file case with the default USD/BRL pair. -/
theorem carregarConfig_nao_fatal_witness :
    carregarConfig .missing moedas (("USD"), ("BRL")) = (("USD"), ("BRL")) :=
  carregarConfig_nao_fatal .missing moedas (("USD"), ("BRL")) (Or.inl rfl)

/-- C9: whenever the outcome of a conversion attempt is not the success
path (same currency, empty, non-numeric or nonpositive amount, quote
failure), the result label and the quote-timestamp label keep their
previous values: the source writes them only on the success path. -/
theorem conversao_rotulos_preservados (transporte : String → HttpResult)
    (o d : String) (t : List Char) (lbls : Labels)
    (h : ((converterMoeda transporte o d t lbls).1).isSucesso = false) :
    (converterMoeda transporte o d t lbls).2.1 = lbls := by
  apply converterMoeda_rotulos_aux
  rw [← converterMoeda_fst transporte o d t lbls]
  exact h

/-- C9 witness: a quote failure leaves the initial labels in place. -/
theorem conversao_rotulos_preservados_witness :
    (converterMoeda transSemRede ("USD") ("BRL") (("100").data)
        rotulosIniciais).2.1 = rotulosIniciais :=
  conversao_rotulos_preservados transSemRede ("USD") ("BRL") (("100").data)
    rotulosIniciais (by with_unfolding_all decide)

/-- C10: the amount input accepts a comma as decimal separator: the
replacement removes every comma, an input `d1,d2` made of digit strings
parses to the decimal number d1.d2, and the conversion treats such an
input exactly like the same input written with a point. -/
theorem virgula_decimal (d1 d2 : List Char)
    (h1 : d1 ≠ []) (hd1 : ∀ ch ∈ d1, ch.isDigit = true)
    (hd2 : ∀ ch ∈ d2, ch.isDigit = true) :
    (∀ t : List Char, ',' ∉ replComma t) ∧
    pyFloat (replComma (d1 ++ ',' :: d2)) =
      some ((digitsToNat d1 : ℚ) +
        (digitsToNat d2 : ℚ) / (10 : ℚ) ^ d2.length) ∧
    (∀ (transporte : String → HttpResult) (o d : String),
      converterCore transporte o d (d1 ++ ',' :: d2) =
        converterCore transporte o d (d1 ++ '.' :: d2)) := by
  refine ⟨?_, ?_, ?_⟩
  · intro t ht
    unfold replComma at ht
    rw [List.mem_map] at ht
    obtain ⟨c0, _, hc0⟩ := ht
    by_cases h : c0 = ',' <;> simp [h] at hc0
  · rw [replComma_decimal d1 d2 hd1 hd2]
    exact pyFloat_decimal d1 d2 h1 hd1 hd2
  · intro transporte o d
    have hrepl : replComma (d1 ++ ',' :: d2) = replComma (d1 ++ '.' :: d2) := by
      rw [replComma_decimal d1 d2 hd1 hd2]
      rw [replComma_sem_virgula]
      intro hm
      rcases List.mem_append.mp hm with hm1 | hm2
      · exact absurd rfl (digitNaoVirgula (hd1 _ hm1))
      · rcases List.mem_cons.mp hm2 with heq | hm3
        · cases heq
        · exact absurd rfl (digitNaoVirgula (hd2 _ hm3))
    unfold converterCore
    rw [hrepl]

/-- C10 witness: the input 1,5 parses as 1.5. -/
theorem virgula_decimal_witness :
    pyFloat (replComma (['1'] ++ ',' :: ['5'])) =
      some ((digitsToNat ['1'] : ℚ) +
        (digitsToNat ['5'] : ℚ) / (10 : ℚ) ^ (['5'] : List Char).length) :=
  (virgula_decimal ['1'] ['5'] (by decide) (by decide) (by decide)).2.1

end Conversor
